import Mathlib

/-!
Verification of the mock identity directory (`src/mock.rs` of the
`users` crate): an in-memory substitute for OS user/group lookups.

The Rust code keeps two `HashMap`s (uid → User, gid → Group) and a fixed
current uid.  We embed the hash maps as association lists with unique keys,
with `hmGet` modelling `HashMap::get` and `hmInsert` modelling
`HashMap::insert` (replace the entry with the same key in place, append
otherwise; `add_user` / `add_group` also return the replaced entry as
`insert` does).  Every trait method of `Users` takes `&mut self` in Rust,
so each is embedded as a state-passing function returning its result
paired with the (possibly updated) state.  `uid_t` / `gid_t` are embedded
as `Nat`: the code only compares identifiers for equality and never does
arithmetic on them, so no wrap-around behaviour is observable.
-/

namespace UsersMock

/-- The `User` record of the crate: uid, name, primary group, home
directory and shell. -/
structure User where
  uid : Nat
  name : String
  primary_group : Nat
  home_dir : String
  shell : String
deriving DecidableEq

/-- The `Group` record of the crate: gid, name and member names. -/
structure Group where
  gid : Nat
  name : String
  members : List String
deriving DecidableEq

/-- Association-list model of `HashMap::get`. -/
def hmGet {α : Type} (m : List (Nat × α)) (k : Nat) : Option α :=
  match m with
  | [] => none
  | (j, v) :: rest => if j = k then some v else hmGet rest k

/-- Association-list model of `HashMap::insert`: replace the entry with
the same key in place, or append a new entry. -/
def hmInsert {α : Type} (m : List (Nat × α)) (k : Nat) (v : α) : List (Nat × α) :=
  match m with
  | [] => [(k, v)]
  | (j, w) :: rest => if j = k then (k, v) :: rest else (j, w) :: hmInsert rest k v

/-- The `MockUsers` state: user table, group table and the current uid. -/
structure MockUsers where
  users : List (Nat × User)
  groups : List (Nat × Group)
  uid : Nat
deriving DecidableEq

/-- `MockUsers::with_current_uid`: a new, empty mock users object. -/
def MockUsers.with_current_uid (current_uid : Nat) : MockUsers :=
  { users := [], groups := [], uid := current_uid }

/-- `MockUsers::add_user`: `self.users.insert(user.uid, user)`, returning
the previous entry under that key (if any) together with the new state. -/
def MockUsers.add_user (s : MockUsers) (user : User) : Option User × MockUsers :=
  (hmGet s.users user.uid, { s with users := hmInsert s.users user.uid user })

/-- `MockUsers::add_group`: `self.groups.insert(group.gid, group)`. -/
def MockUsers.add_group (s : MockUsers) (group : Group) : Option Group × MockUsers :=
  (hmGet s.groups group.gid, { s with groups := hmInsert s.groups group.gid group })

/-- `Users::get_user_by_uid`: `self.users.get(&uid).cloned()`. -/
def MockUsers.get_user_by_uid (s : MockUsers) (uid : Nat) : Option User × MockUsers :=
  (hmGet s.users uid, s)

/-- `Users::get_user_by_name`:
`self.users.values().find(|u| u.name == username).cloned()`. -/
def MockUsers.get_user_by_name (s : MockUsers) (username : String) : Option User × MockUsers :=
  ((s.users.map Prod.snd).find? (fun u => u.name == username), s)

/-- `Users::get_group_by_gid`: `self.groups.get(&gid).cloned()`. -/
def MockUsers.get_group_by_gid (s : MockUsers) (gid : Nat) : Option Group × MockUsers :=
  (hmGet s.groups gid, s)

/-- `Users::get_group_by_name`:
`self.groups.values().find(|g| g.name == group_name).cloned()`. -/
def MockUsers.get_group_by_name (s : MockUsers) (group_name : String) : Option Group × MockUsers :=
  ((s.groups.map Prod.snd).find? (fun g => g.name == group_name), s)

/-- `Users::get_current_uid`: `self.uid`. -/
def MockUsers.get_current_uid (s : MockUsers) : Nat × MockUsers :=
  (s.uid, s)

/-- `Users::get_current_username`:
`self.users.get(&self.uid).map(|u| u.name.clone())`. -/
def MockUsers.get_current_username (s : MockUsers) : Option String × MockUsers :=
  ((hmGet s.users s.uid).map (fun u => u.name), s)

/-- `Users::get_current_gid`: `self.uid`. -/
def MockUsers.get_current_gid (s : MockUsers) : Nat × MockUsers :=
  (s.uid, s)

/-- `Users::get_current_groupname`:
`self.groups.get(&self.uid).map(|u| u.name.clone())`. -/
def MockUsers.get_current_groupname (s : MockUsers) : Option String × MockUsers :=
  ((hmGet s.groups s.uid).map (fun u => u.name), s)

/-- `Users::get_effective_uid`: `self.uid`. -/
def MockUsers.get_effective_uid (s : MockUsers) : Nat × MockUsers :=
  (s.uid, s)

/-- `Users::get_effective_username`:
`self.users.get(&self.uid).map(|u| u.name.clone())`. -/
def MockUsers.get_effective_username (s : MockUsers) : Option String × MockUsers :=
  ((hmGet s.users s.uid).map (fun u => u.name), s)

/-- `Users::get_effective_gid`: `self.uid`. -/
def MockUsers.get_effective_gid (s : MockUsers) : Nat × MockUsers :=
  (s.uid, s)

/-- `Users::get_effective_groupname`:
`self.groups.get(&self.uid).map(|u| u.name.clone())`. -/
def MockUsers.get_effective_groupname (s : MockUsers) : Option String × MockUsers :=
  ((hmGet s.groups s.uid).map (fun u => u.name), s)

/-- A mutating operation on the directory (used to describe the states
reachable from a freshly constructed directory). -/
inductive Op where
  | addUser (u : User)
  | addGroup (g : Group)
deriving DecidableEq

/-- Apply one mutating operation, keeping the updated state. -/
def applyOp (s : MockUsers) : Op → MockUsers
  | Op.addUser u => (s.add_user u).2
  | Op.addGroup g => (s.add_group g).2

/-- Run a sequence of mutating operations. -/
def runOps (s : MockUsers) (ops : List Op) : MockUsers :=
  ops.foldl applyOp s

/-- Whether an operation inserts a user under uid `x`. -/
def Op.addsUserWithUid : Op → Nat → Bool
  | Op.addUser u, x => u.uid == x
  | Op.addGroup _, _ => false

theorem hmGet_hmInsert_self {α : Type} (m : List (Nat × α)) (k : Nat) (v : α) :
    hmGet (hmInsert m k v) k = some v := by
  induction m with
  | nil => simp [hmInsert, hmGet]
  | cons p rest ih =>
    obtain ⟨j, w⟩ := p
    by_cases h : j = k
    · simp [hmInsert, h, hmGet]
    · simp [hmInsert, h, hmGet, ih]

theorem hmGet_hmInsert_ne {α : Type} (m : List (Nat × α)) (k i : Nat) (v : α)
    (h : i ≠ k) : hmGet (hmInsert m k v) i = hmGet m i := by
  induction m with
  | nil => simp [hmInsert, hmGet, Ne.symm h]
  | cons p rest ih =>
    obtain ⟨j, w⟩ := p
    by_cases hjk : j = k
    · subst hjk
      simp [hmInsert, hmGet, Ne.symm h]
    · simp [hmInsert, hjk, hmGet, ih]

theorem hmGet_eq_none_iff {α : Type} (m : List (Nat × α)) (k : Nat) :
    hmGet m k = none ↔ ∀ p ∈ m, p.1 ≠ k := by
  induction m with
  | nil => simp [hmGet]
  | cons p rest ih =>
    obtain ⟨j, w⟩ := p
    by_cases h : j = k
    · subst h
      simp [hmGet]
    · simp [hmGet, h, ih]

theorem runOps_cons (s : MockUsers) (op : Op) (rest : List Op) :
    runOps s (op :: rest) = runOps (applyOp s op) rest := rfl

theorem applyOp_uid (s : MockUsers) (op : Op) : (applyOp s op).uid = s.uid := by
  cases op <;> rfl

theorem runOps_uid (s : MockUsers) (ops : List Op) : (runOps s ops).uid = s.uid := by
  induction ops generalizing s with
  | nil => rfl
  | cons op rest ih => rw [runOps_cons, ih, applyOp_uid]

theorem applyOp_users_frame (s : MockUsers) (op : Op) (k : Nat)
    (h : op.addsUserWithUid k = false) :
    hmGet (applyOp s op).users k = hmGet s.users k := by
  cases op with
  | addUser u =>
    simp only [Op.addsUserWithUid, beq_eq_false_iff_ne, ne_eq] at h
    show hmGet (hmInsert s.users u.uid u) k = hmGet s.users k
    exact hmGet_hmInsert_ne s.users u.uid k u (Ne.symm h)
  | addGroup g => rfl

theorem runOps_users_frame (s : MockUsers) (ops : List Op) (k : Nat)
    (h : ∀ op ∈ ops, op.addsUserWithUid k = false) :
    hmGet (runOps s ops).users k = hmGet s.users k := by
  induction ops generalizing s with
  | nil => rfl
  | cons op rest ih =>
    rw [runOps_cons, ih _ (fun o ho => h o (List.mem_cons_of_mem _ ho)),
      applyOp_users_frame s op k (h op (List.mem_cons_self _ _))]

/-- C1: after `add_user u`, `get_user_by_uid u.uid` returns `some u`, in
every starting state — in particular, when several users with the same
uid were added, the lookup returns the last-added one. -/
theorem add_user_lookup_self (s : MockUsers) (u : User) :
    (((s.add_user u).2).get_user_by_uid u.uid).1 = some u := by
  simp [MockUsers.add_user, MockUsers.get_user_by_uid, hmGet_hmInsert_self]

/-- C3: in every state reachable from a freshly constructed directory,
the four effective queries return exactly what their current
counterparts return. -/
theorem effective_eq_current (c : Nat) (ops : List Op) :
    ((runOps (MockUsers.with_current_uid c) ops).get_effective_uid).1
        = ((runOps (MockUsers.with_current_uid c) ops).get_current_uid).1 ∧
    ((runOps (MockUsers.with_current_uid c) ops).get_effective_username).1
        = ((runOps (MockUsers.with_current_uid c) ops).get_current_username).1 ∧
    ((runOps (MockUsers.with_current_uid c) ops).get_effective_gid).1
        = ((runOps (MockUsers.with_current_uid c) ops).get_current_gid).1 ∧
    ((runOps (MockUsers.with_current_uid c) ops).get_effective_groupname).1
        = ((runOps (MockUsers.with_current_uid c) ops).get_current_groupname).1 :=
  ⟨rfl, rfl, rfl, rfl⟩

/-- C4: `get_current_uid` and `get_current_gid` both return the value
passed at construction, whatever insertions happened since. -/
theorem current_identity_invariant (c : Nat) (ops : List Op) :
    ((runOps (MockUsers.with_current_uid c) ops).get_current_uid).1 = c ∧
    ((runOps (MockUsers.with_current_uid c) ops).get_current_gid).1 = c := by
  refine ⟨?_, ?_⟩ <;>
    simp [MockUsers.get_current_uid, MockUsers.get_current_gid, runOps_uid,
      MockUsers.with_current_uid]

/-- C9: every query of the `Users` trait leaves the whole state (user
table, group table and stored uid) unchanged. -/
theorem queries_preserve_state (s : MockUsers) (i : Nat) (n : String) :
    (s.get_user_by_uid i).2 = s ∧ (s.get_user_by_name n).2 = s ∧
    (s.get_group_by_gid i).2 = s ∧ (s.get_group_by_name n).2 = s ∧
    s.get_current_uid.2 = s ∧ s.get_current_username.2 = s ∧
    s.get_current_gid.2 = s ∧ s.get_current_groupname.2 = s ∧
    s.get_effective_uid.2 = s ∧ s.get_effective_username.2 = s ∧
    s.get_effective_gid.2 = s ∧ s.get_effective_groupname.2 = s :=
  ⟨rfl, rfl, rfl, rfl, rfl, rfl, rfl, rfl, rfl, rfl, rfl, rfl⟩

/-- C2: on a key not yet present, `add_user` / `add_group` return `none`
as the previous entry; a second insertion with the same key returns the
first entry as the previous value, and lookups by that key afterwards
reflect only the second entry. -/
theorem add_twice_last_write_wins (s : MockUsers) (u1 u2 : User) (g1 g2 : Group)
    (hu : u1.uid = u2.uid) (hg : g1.gid = g2.gid)
    (hfu : (s.get_user_by_uid u1.uid).1 = none)
    (hfg : (s.get_group_by_gid g1.gid).1 = none) :
    (s.add_user u1).1 = none ∧
    (((s.add_user u1).2).add_user u2).1 = some u1 ∧
    (((((s.add_user u1).2).add_user u2).2).get_user_by_uid u2.uid).1 = some u2 ∧
    (s.add_group g1).1 = none ∧
    (((s.add_group g1).2).add_group g2).1 = some g1 ∧
    (((((s.add_group g1).2).add_group g2).2).get_group_by_gid g2.gid).1 = some g2 := by
  refine ⟨hfu, ?_, ?_, hfg, ?_, ?_⟩
  · show hmGet (hmInsert s.users u1.uid u1) u2.uid = some u1
    rw [← hu]
    exact hmGet_hmInsert_self s.users u1.uid u1
  · exact hmGet_hmInsert_self (hmInsert s.users u1.uid u1) u2.uid u2
  · show hmGet (hmInsert s.groups g1.gid g1) g2.gid = some g1
    rw [← hg]
    exact hmGet_hmInsert_self s.groups g1.gid g1
  · exact hmGet_hmInsert_self (hmInsert s.groups g1.gid g1) g2.gid g2

theorem add_twice_last_write_wins_witness :
    (((MockUsers.with_current_uid 0).add_user ⟨1, "ann", 10, "/a", "/s"⟩).2.add_user
        ⟨1, "bob", 11, "/b", "/s"⟩).1 = some ⟨1, "ann", 10, "/a", "/s"⟩ :=
  (add_twice_last_write_wins (MockUsers.with_current_uid 0)
      ⟨1, "ann", 10, "/a", "/s"⟩ ⟨1, "bob", 11, "/b", "/s"⟩
      ⟨2, "g", []⟩ ⟨2, "h", ["m"]⟩ rfl rfl (by decide) (by decide)).2.1

/-- C5: with construction value `c`, `get_current_username` is `none` as
long as no user with uid `c` has been added, and is the name of the user
with uid `c` once such a user is added, whatever other users or groups
are added afterwards. -/
theorem current_username_tracks_current_uid (c : Nat) (ops : List Op)
    (h : ∀ op ∈ ops, op.addsUserWithUid c = false) :
    ((runOps (MockUsers.with_current_uid c) ops).get_current_username).1 = none ∧
    (∀ (s : MockUsers) (u : User), s.uid = c → u.uid = c →
      ((runOps ((s.add_user u).2) ops).get_current_username).1 = some u.name) := by
  constructor
  · simp only [MockUsers.get_current_username, runOps_uid,
      runOps_users_frame _ _ _ h, MockUsers.with_current_uid]
    rfl
  · intro s u hs hu
    have h1 : (runOps ((s.add_user u).2) ops).uid = c := by
      rw [runOps_uid]; exact hs
    show (hmGet (runOps ((s.add_user u).2) ops).users
        (runOps ((s.add_user u).2) ops).uid).map (fun v => v.name) = some u.name
    rw [h1, runOps_users_frame _ _ _ h]
    show (hmGet (hmInsert s.users u.uid u) c).map (fun v => v.name) = some u.name
    rw [← hu, hmGet_hmInsert_self]
    rfl

theorem current_username_tracks_current_uid_witness :
    ((runOps ((MockUsers.with_current_uid 1337).add_user
          ⟨1337, "fred", 101, "/home/fred", "/bin/bash"⟩).2
        [Op.addGroup ⟨5, "grp", []⟩, Op.addUser ⟨42, "zoe", 7, "/z", "/s"⟩]).get_current_username).1
      = some "fred" :=
  (current_username_tracks_current_uid 1337
      [Op.addGroup ⟨5, "grp", []⟩, Op.addUser ⟨42, "zoe", 7, "/z", "/s"⟩]
      (by decide)).2 (MockUsers.with_current_uid 1337)
    ⟨1337, "fred", 101, "/home/fred", "/bin/bash"⟩ rfl rfl

/-- C6: `get_current_groupname` consults the group table at the stored
construction value: if a group with that gid is present it returns that
group's name, otherwise it returns `none`. -/
theorem current_groupname_from_group_table (c : Nat) (ops : List Op) :
    (∀ g : Group,
      ((runOps (MockUsers.with_current_uid c) ops).get_group_by_gid c).1 = some g →
        ((runOps (MockUsers.with_current_uid c) ops).get_current_groupname).1 = some g.name) ∧
    (((runOps (MockUsers.with_current_uid c) ops).get_group_by_gid c).1 = none →
      ((runOps (MockUsers.with_current_uid c) ops).get_current_groupname).1 = none) := by
  have h1 : (runOps (MockUsers.with_current_uid c) ops).uid = c :=
    runOps_uid (MockUsers.with_current_uid c) ops
  constructor
  · intro g hg
    simp only [MockUsers.get_group_by_gid] at hg
    show (hmGet (runOps (MockUsers.with_current_uid c) ops).groups
        (runOps (MockUsers.with_current_uid c) ops).uid).map (fun v => v.name) = some g.name
    rw [h1, hg]
    rfl
  · intro hg
    simp only [MockUsers.get_group_by_gid] at hg
    show (hmGet (runOps (MockUsers.with_current_uid c) ops).groups
        (runOps (MockUsers.with_current_uid c) ops).uid).map (fun v => v.name) = none
    rw [h1, hg]
    rfl

theorem current_groupname_from_group_table_witness :
    ((runOps (MockUsers.with_current_uid 0) [Op.addGroup ⟨0, "wheel", []⟩]).get_current_groupname).1
      = some "wheel" :=
  (current_groupname_from_group_table 0 [Op.addGroup ⟨0, "wheel", []⟩]).1
    ⟨0, "wheel", []⟩ (by decide)

/-- C7: `get_user_by_name` returns `none` exactly when no stored user
has the given name (byte-exact string equality), and any user it returns
is a stored user bearing that exact name. -/
theorem get_user_by_name_correct (s : MockUsers) (n : String) :
    ((s.get_user_by_name n).1 = none ↔ ∀ u ∈ s.users.map Prod.snd, u.name ≠ n) ∧
    (∀ u, (s.get_user_by_name n).1 = some u → u ∈ s.users.map Prod.snd ∧ u.name = n) := by
  refine ⟨?_, ?_⟩
  · show (s.users.map Prod.snd).find? (fun u => u.name == n) = none ↔ _
    rw [List.find?_eq_none]
    simp
  · intro u hu
    replace hu : (s.users.map Prod.snd).find? (fun u => u.name == n) = some u := hu
    exact ⟨List.mem_of_find?_eq_some hu, by simpa using List.find?_some hu⟩

theorem get_user_by_name_correct_witness :
    (((MockUsers.with_current_uid 0).add_user ⟨7, "fred", 1, "/h", "/s"⟩).2.get_user_by_name
        "bob").1 = none :=
  ((get_user_by_name_correct
      ((MockUsers.with_current_uid 0).add_user ⟨7, "fred", 1, "/h", "/s"⟩).2 "bob").1).mpr
    (by decide)

/-- C8: absence is always an empty optional, never an error value: each
lookup returns `none` exactly when no entry of the relevant table
matches.  (Every operation of the embedding is a total Lean function of
the state, mirroring the Rust code, which has no panicking or fallible
path.) -/
theorem lookups_none_iff_no_match (s : MockUsers) (i : Nat) (n : String) :
    ((s.get_user_by_uid i).1 = none ↔ ∀ p ∈ s.users, p.1 ≠ i) ∧
    ((s.get_user_by_name n).1 = none ↔ ∀ u ∈ s.users.map Prod.snd, u.name ≠ n) ∧
    ((s.get_group_by_gid i).1 = none ↔ ∀ p ∈ s.groups, p.1 ≠ i) ∧
    ((s.get_group_by_name n).1 = none ↔ ∀ g ∈ s.groups.map Prod.snd, g.name ≠ n) ∧
    (s.get_current_username.1 = none ↔ ∀ p ∈ s.users, p.1 ≠ s.uid) ∧
    (s.get_current_groupname.1 = none ↔ ∀ p ∈ s.groups, p.1 ≠ s.uid) ∧
    (s.get_effective_username.1 = none ↔ ∀ p ∈ s.users, p.1 ≠ s.uid) ∧
    (s.get_effective_groupname.1 = none ↔ ∀ p ∈ s.groups, p.1 ≠ s.uid) := by
  refine ⟨hmGet_eq_none_iff s.users i, ?_, hmGet_eq_none_iff s.groups i, ?_, ?_, ?_, ?_, ?_⟩
  · show (s.users.map Prod.snd).find? (fun u => u.name == n) = none ↔ _
    rw [List.find?_eq_none]
    simp
  · show (s.groups.map Prod.snd).find? (fun g => g.name == n) = none ↔ _
    rw [List.find?_eq_none]
    simp
  all_goals
    show (hmGet _ s.uid).map _ = none ↔ _
    rw [Option.map_eq_none', hmGet_eq_none_iff]

/-- C10: `add_user u` changes only the user-table entry at `u.uid`
(lookups at other uids, the whole group table and the stored uid are
unchanged); symmetrically `add_group g` changes only the group-table
entry at `g.gid`. -/
theorem add_frame (s : MockUsers) (u : User) (g : Group) (i j : Nat)
    (hi : i ≠ u.uid) (hj : j ≠ g.gid) :
    (((s.add_user u).2).get_user_by_uid i).1 = (s.get_user_by_uid i).1 ∧
    ((s.add_user u).2).groups = s.groups ∧
    ((s.add_user u).2).uid = s.uid ∧
    (((s.add_group g).2).get_group_by_gid j).1 = (s.get_group_by_gid j).1 ∧
    ((s.add_group g).2).users = s.users ∧
    ((s.add_group g).2).uid = s.uid := by
  refine ⟨?_, rfl, rfl, ?_, rfl, rfl⟩
  · exact hmGet_hmInsert_ne s.users u.uid i u hi
  · exact hmGet_hmInsert_ne s.groups g.gid j g hj

theorem add_frame_witness :
    ((((MockUsers.with_current_uid 9).add_user ⟨1, "ann", 2, "/a", "/s"⟩).2).get_user_by_uid 3).1
      = ((MockUsers.with_current_uid 9).get_user_by_uid 3).1 :=
  (add_frame (MockUsers.with_current_uid 9) ⟨1, "ann", 2, "/a", "/s"⟩ ⟨4, "g", []⟩ 3 5
      (by decide) (by decide)).1

end UsersMock
